import Mathlib

/-!
Verification of the offline synchronization engine of the travel-booking
application.  The definitions below are a shallow embedding of the
TypeScript sources:

* `Worker.*`      — `src/app/workers/data-worker.worker.ts`
  (`syncPendingBookings`, `batchUpdateBookings`, `broadcastEvent`);
* `tableUpdate`   — Dexie's `Table.update` as used by both store handles
  (`OfflineStorageService.updateBooking` forwards to it unchanged);
* `Store.*`       — `DataStoreService` (corrected revision: the sync slice
  carries `pendingCount`, `failedCount`, `syncErrors`);
* `SyncSvc.*`     — `SyncService.syncPendingBookings` (`syncNow`);
* `Bridge.*`      — `WorkerManagerService.generateMessageId` and the
  `onmessage` routing of event broadcasts.

Asynchrony is flattened: the simulated remote call (`Math.random() < 0.95`)
becomes an explicit outcome oracle `ok : Nat → Bool` indexed by the position
of the booking in the pending selection; within a batch the `allSettled`
attempts run concurrently in the source, but each attempt touches only the
record with its own primary key, so the sequential order used here is
observationally equivalent for the stored outcome.  JS number-to-string
interpolation is embedded as `toDec` (decimal rendering); JS truthiness of
`booking.id` is `idTruthy` (`undefined` and `0` are falsy).
-/

/-- The `syncStatus` union type `'synced' | 'pending' | 'failed'`. -/
inductive SyncState where
  | synced
  | pending
  | failed
deriving DecidableEq, Repr

/-- The booking lifecycle `status` union type `'pending' | 'confirmed' | 'cancelled'`. -/
inductive BookingStatus where
  | pending
  | confirmed
  | cancelled
deriving DecidableEq, Repr

/-- `Passenger` interface. -/
structure Passenger where
  name : String
  age : Nat
  gender : String
  seatNumber : Option String
deriving DecidableEq, Repr

/-- The `Booking` interface.  `id` is assigned by the store (auto-increment,
hence ≥ 1 on stored records) and is optional before the first persist.
`createdAt` is a timestamp, `totalAmount` a number (integer model). -/
structure Booking where
  id : Option Nat
  ticketId : String
  passengers : List Passenger
  totalAmount : Int
  status : BookingStatus
  createdAt : Nat
  syncStatus : SyncState
deriving DecidableEq, Repr

/-- A Dexie `Partial<Booking>` change object as used by the app: any subset
of the non-key fields (the app never writes the primary key in an update). -/
structure BookingUpdate where
  ticketId : Option String := none
  passengers : Option (List Passenger) := none
  totalAmount : Option Int := none
  status : Option BookingStatus := none
  createdAt : Option Nat := none
  syncStatus : Option SyncState := none
deriving DecidableEq, Repr

/-- Applying a change object to a record: fields present in the change
overwrite, the rest are kept (Dexie shallow update). -/
def applyUpdate (u : BookingUpdate) (b : Booking) : Booking :=
  { b with
    ticketId := u.ticketId.getD b.ticketId
    passengers := u.passengers.getD b.passengers
    totalAmount := u.totalAmount.getD b.totalAmount
    status := u.status.getD b.status
    createdAt := u.createdAt.getD b.createdAt
    syncStatus := u.syncStatus.getD b.syncStatus }

/-- Dexie `db.bookings.update(key, changes)`: modifies the record whose
primary key equals `key` and resolves with the number of affected records —
`1` when the key exists, `0` when it does not (it never throws for a missing
key).  The bookings table is modelled as the list of its records. -/
def tableUpdate (db : List Booking) (key : Nat) (u : BookingUpdate) :
    List Booking × Nat :=
  (db.map fun b => if b.id = some key then applyUpdate u b else b,
   if db.any fun b => b.id == some key then 1 else 0)

/-- JS truthiness of `booking.id` (`undefined` and `0` are falsy). -/
def idTruthy : Option Nat → Bool
  | some n => n != 0
  | none => false

/-- Decimal digit list of a natural number (most significant first), each
digit `< 10`. -/
def decDigitsAux : Nat → Nat → List Nat
  | 0, n => [n]
  | fuel + 1, n => if n < 10 then [n] else decDigitsAux fuel (n / 10) ++ [n % 10]

/-- Decimal digit list of a natural number (most significant first): the
fuelled accumulation started with enough fuel. -/
def decDigits (n : Nat) : List Nat :=
  decDigitsAux n n

/-- JS `ToString` of a non-negative integral number: decimal rendering.
Used to embed template-literal interpolation of numbers. -/
def toDec (n : Nat) : String :=
  String.mk ((decDigits n).map Nat.digitChar)

/-- Rendering of `${booking.id}` in a template literal: the decimal digits
when the id is present, `"undefined"` when it is absent. -/
def optIdRepr : Option Nat → String
  | some n => toDec n
  | none => "undefined"

namespace Worker

/-- The `SyncResult` returned by the worker's reconciliation pass. -/
structure SyncResult where
  successful : Nat
  failed : Nat
  errors : List String
deriving DecidableEq, Repr

/-- `SYNC_PROGRESS` event payload `{current, total, percentage}`. -/
structure ProgressEvent where
  current : Nat
  total : Nat
  percentage : Nat
deriving DecidableEq, Repr

/-- `Math.round((i / total) * 100)` on exact rationals: round half up.
`⌊100·i/n + 1/2⌋ = ⌊(200·i + n) / (2·n)⌋`. -/
def jsRound100 (i n : Nat) : Nat :=
  (200 * i + n) / (2 * n)

/-- The progress event emitted before the batch at offset `i` of a pass over
`n` pending bookings. -/
def mkProgress (i n : Nat) : ProgressEvent :=
  { current := i, total := n, percentage := jsRound100 i n }

/-- The selection `db.bookings.where('syncStatus').equals('pending').toArray()`. -/
def pendingOf (db : List Booking) : List Booking :=
  db.filter fun b => b.syncStatus == SyncState.pending

/-- The error string `` `Booking ${booking.id}: ${(error as Error).message}` ``
pushed on a failed attempt; the simulated API always rejects with
`'API sync failed'`. -/
def syncErrorMsg (b : Booking) : String :=
  "Booking " ++ optIdRepr b.id ++ ": API sync failed"

/-- The evolving state of one reconciliation pass: the worker's table
handle, the accumulated `results`, and the trace of bookings attempted (in
dispatch order) — the trace makes `allSettled`'s “every booking is
attempted” observable. -/
structure LoopState where
  db : List Booking
  res : SyncResult
  attempts : List Booking
deriving Repr

/-- One settled attempt of `batch.map(async (booking) => ...)`: on success
update the record to `syncStatus='synced', status='confirmed'` and count it
successful; on failure update it to `syncStatus='failed'`, count it failed
and push the error string.  The record update is guarded by JS truthiness of
`booking.id`. -/
def attemptBooking (s : LoopState) (b : Booking) (ok : Bool) : LoopState :=
  if ok then
    { db :=
        if idTruthy b.id then
          (tableUpdate s.db (b.id.getD 0)
            { syncStatus := some .synced, status := some .confirmed }).1
        else s.db
      res := { s.res with successful := s.res.successful + 1 }
      attempts := s.attempts ++ [b] }
  else
    { db :=
        if idTruthy b.id then
          (tableUpdate s.db (b.id.getD 0) { syncStatus := some .failed }).1
        else s.db
      res := { s.res with
        failed := s.res.failed + 1
        errors := s.res.errors ++ [syncErrorMsg b] }
      attempts := s.attempts ++ [b] }

/-- `Promise.allSettled` over one batch, each booking tagged with its
simulated remote outcome. -/
def runBatch (s : LoopState) : List (Booking × Bool) → LoopState
  | [] => s
  | t :: rest => runBatch (attemptBooking s t.1 t.2) rest

/-- The batch loop `for (let i = 0; i < n; i += 5)`: emit the progress event
for offset `i`, settle the batch `pending.slice(i, i + 5)`, continue.  The
five-deep pattern realises `slice(i, i+5)` structurally. -/
def syncLoop (n : Nat) (i : Nat) (s : LoopState) :
    List (Booking × Bool) → LoopState × List ProgressEvent
  | [] => (s, [])
  | a :: b :: c :: d :: e :: rest =>
      let s1 := runBatch s [a, b, c, d, e]
      let r := syncLoop n (i + 5) s1 rest
      (r.1, mkProgress i n :: r.2)
  | l => (runBatch s l, [mkProgress i n])

/-- Everything a reconciliation pass produces: the final table, the
returned `SyncResult`, the emitted `SYNC_PROGRESS` payloads in order, and
the trace of attempted bookings. -/
structure SyncOutput where
  db : List Booking
  result : SyncResult
  events : List ProgressEvent
  attempts : List Booking
deriving Repr

/-- `syncPendingBookings()` of the data worker: select the pending
bookings, process them in batches of 5 against the outcome oracle `ok`
(position `i` of the selection succeeds iff `ok i`). -/
def syncPendingBookings (db0 : List Booking) (ok : Nat → Bool) : SyncOutput :=
  let pend := pendingOf db0
  let tagged := pend.enum.map fun p => (p.2, ok p.1)
  let r := syncLoop pend.length 0 ⟨db0, ⟨0, 0, []⟩, []⟩ tagged
  { db := r.1.db, result := r.1.res, events := r.2, attempts := r.1.attempts }

/-- `batchUpdateBookings`: apply the updates in order inside one
transaction, counting an update as successful iff Dexie reported a nonzero
affected count (`if (result) updateCount++`). -/
def batchUpdateBookings (db : List Booking) (us : List (Nat × BookingUpdate)) :
    List Booking × Nat :=
  us.foldl
    (fun acc e =>
      let r := tableUpdate acc.1 e.1 e.2
      (r.1, acc.2 + if r.2 != 0 then 1 else 0))
    (db, 0)

end Worker

/-! ### Application State Store (`DataStoreService`, corrected revision) -/

/-- The observable `SyncStatus` slice of the state store. -/
structure SyncStatus where
  isSyncing : Bool
  lastSyncTime : Option Nat
  pendingCount : Nat
  failedCount : Nat
  syncErrors : List String
deriving DecidableEq, Repr

/-- The booking-counter slice `AppState['bookings']`. -/
structure BookingStats where
  total : Nat
  pending : Nat
  confirmed : Nat
  cancelled : Nat
  needsSync : Nat
deriving DecidableEq, Repr

/-- The network slice. -/
structure NetworkState where
  isOnline : Bool
deriving DecidableEq, Repr

/-- The whole `AppState` held by the `BehaviorSubject`. -/
structure AppState where
  bookings : BookingStats
  sync : SyncStatus
  network : NetworkState
deriving DecidableEq, Repr

/-- A `Partial<AppState['bookings']>` merge argument. -/
structure BookingStatsPatch where
  total : Option Nat := none
  pending : Option Nat := none
  confirmed : Option Nat := none
  cancelled : Option Nat := none
  needsSync : Option Nat := none
deriving DecidableEq, Repr

/-- A `Partial<SyncStatus>` merge argument (`lastSyncTime` itself is
nullable, hence the nested option). -/
structure SyncStatusPatch where
  isSyncing : Option Bool := none
  lastSyncTime : Option (Option Nat) := none
  pendingCount : Option Nat := none
  failedCount : Option Nat := none
  syncErrors : Option (List String) := none
deriving DecidableEq, Repr

/-- Shallow spread-merge `{ ...current, ...patch }` on the booking slice. -/
def mergeBookingStats (s : BookingStats) (p : BookingStatsPatch) : BookingStats :=
  { total := p.total.getD s.total
    pending := p.pending.getD s.pending
    confirmed := p.confirmed.getD s.confirmed
    cancelled := p.cancelled.getD s.cancelled
    needsSync := p.needsSync.getD s.needsSync }

/-- Shallow spread-merge on the sync slice. -/
def mergeSyncStatus (s : SyncStatus) (p : SyncStatusPatch) : SyncStatus :=
  { isSyncing := p.isSyncing.getD s.isSyncing
    lastSyncTime := p.lastSyncTime.getD s.lastSyncTime
    pendingCount := p.pendingCount.getD s.pendingCount
    failedCount := p.failedCount.getD s.failedCount
    syncErrors := p.syncErrors.getD s.syncErrors }

/-- `DataStoreService.updateSyncStatus`. -/
def updateSyncStatus (st : AppState) (p : SyncStatusPatch) : AppState :=
  { st with sync := mergeSyncStatus st.sync p }

/-- `DataStoreService.updateBookingStats`: merge the booking slice, then —
when the patch carries `needsSync` — propagate it into `sync.pendingCount`. -/
def updateBookingStats (st : AppState) (p : BookingStatsPatch) : AppState :=
  let st1 := { st with bookings := mergeBookingStats st.bookings p }
  match p.needsSync with
  | some k => updateSyncStatus st1 { pendingCount := some k }
  | none => st1

/-- `DataStoreService.updateNetworkStatus`. -/
def updateNetworkStatus (st : AppState) (isOnline : Bool) : AppState :=
  { st with network := { isOnline := isOnline } }

/-- The `stats` payload `{bookings, tickets, pendingSync}` carried by
worker events. -/
structure StatsPayload where
  bookings : Nat
  tickets : Nat
  pendingSync : Nat
deriving DecidableEq, Repr

/-- A worker broadcast event as consumed by `handleWorkerEvent`; optional
components model the `event.data.stats` / `event.data.results` accesses
guarded by `?.`/truthiness in the source. -/
inductive WorkerEvent where
  | bookingSaved (stats : Option StatsPayload)
  | bookingUpdated (stats : Option StatsPayload)
  | bookingDeleted (stats : Option StatsPayload)
  | statsChanged (stats : Option StatsPayload)
  | syncProgress (current total percentage : Nat)
  | syncCompleted (results : Option Worker.SyncResult) (stats : Option StatsPayload)
deriving DecidableEq, Repr

/-- The fixed event-routing table of `DataStoreService.handleWorkerEvent`
(`now` stands for `new Date()` at handling time). -/
def handleWorkerEvent (st : AppState) (e : WorkerEvent) (now : Nat) : AppState :=
  match e with
  | .bookingSaved stats | .bookingUpdated stats | .bookingDeleted stats
  | .statsChanged stats =>
      match stats with
      | some sp =>
          updateBookingStats st
            { total := some sp.bookings, needsSync := some sp.pendingSync }
      | none => st
  | .syncProgress _ _ _ => updateSyncStatus st { isSyncing := some true }
  | .syncCompleted results stats =>
      let st1 := updateSyncStatus st
        { isSyncing := some false
          lastSyncTime := some (some now)
          failedCount := some ((results.map Worker.SyncResult.failed).getD 0)
          syncErrors := some ((results.map Worker.SyncResult.errors).getD []) }
      match stats with
      | some sp =>
          updateBookingStats st1
            { total := some sp.bookings, needsSync := some sp.pendingSync }
      | none => st1

/-- The module-level `initialState` (network flag read from the platform at
module load). -/
def initialState (online0 : Bool) : AppState :=
  { bookings := { total := 0, pending := 0, confirmed := 0, cancelled := 0, needsSync := 0 }
    sync := { isSyncing := false, lastSyncTime := none, pendingCount := 0,
              failedCount := 0, syncErrors := [] }
    network := { isOnline := online0 } }

/-- The write surface of the Application State Store: its partial-merge
setters, the event handler and `resetState`. -/
inductive StoreOp where
  | updBookingStats (p : BookingStatsPatch)
  | updSyncStatus (p : SyncStatusPatch)
  | updNetworkStatus (isOnline : Bool)
  | handleEvent (e : WorkerEvent) (now : Nat)
  | reset (online0 : Bool)
deriving DecidableEq, Repr

/-- One state-store operation. -/
def applyOp (st : AppState) : StoreOp → AppState
  | .updBookingStats p => updateBookingStats st p
  | .updSyncStatus p => updateSyncStatus st p
  | .updNetworkStatus b => updateNetworkStatus st b
  | .handleEvent e now => handleWorkerEvent st e now
  | .reset online0 => initialState online0

/-- A sequence of state-store operations. -/
def applyOps (st : AppState) (ops : List StoreOp) : AppState :=
  ops.foldl applyOp st

/-- Whether an operation writes `sync.pendingCount` directly through
`updateSyncStatus` (rather than via the `needsSync` propagation). -/
def setsPendingCountDirectly : StoreOp → Bool
  | .updSyncStatus p => p.pendingCount.isSome
  | _ => false

/-! ### Sync Orchestrator (`SyncService.syncPendingBookings`, i.e. `syncNow`) -/

namespace SyncSvc

/-- The collaborators `syncNow` consults, flattened into one snapshot: the
network flag, the fresh `getStats()` answer (`bookings` and `pendingSync`),
the outcome of the worker's reconcile call (`none` = the bridge call
rejects), and the wall clock for `new Date()`. -/
structure WorkerCtx where
  online : Bool
  statsBookings : Nat
  statsPending : Nat
  reconcileOk : Option Worker.SyncResult
  now : Nat
deriving DecidableEq, Repr

/-- `SyncService.syncPendingBookings` as a transition: given the current
store state and the collaborator snapshot it yields the returned boolean,
the store state after the service's own merges, and the number of reconcile
calls issued to the worker (0 or 1). -/
def syncPendingBookings (st : AppState) (ctx : WorkerCtx) :
    Bool × AppState × Nat :=
  if st.sync.isSyncing then (false, st, 0)
  else if !ctx.online then (false, st, 0)
  else
    let st1 := updateBookingStats st
      { total := some ctx.statsBookings, needsSync := some ctx.statsPending }
    if st1.bookings.needsSync == 0 then (true, st1, 0)
    else
      let st2 := updateSyncStatus st1 { isSyncing := some true }
      match ctx.reconcileOk with
      | some r =>
          (r.failed == 0,
           updateSyncStatus st2
             { isSyncing := some false, lastSyncTime := some (some ctx.now) },
           1)
      | none => (false, updateSyncStatus st2 { isSyncing := some false }, 1)

end SyncSvc

/-! ### Worker Bridge (`WorkerManagerService`) -/

namespace Bridge

/-- `` `msg_${Date.now()}_${++this.messageCounter}` ``: the request id built
from the timestamp and the (pre-incremented, hence strictly increasing
within a session) message counter. -/
def generateMessageId (timestamp counter : Nat) : String :=
  "msg_" ++ toDec timestamp ++ "_" ++ toDec counter

/-- The routing-relevant part of a message received from the worker. -/
structure WResponse where
  id : String
  mtype : String
  success : Bool
deriving DecidableEq, Repr

/-- The envelope `broadcastEvent` posts: `{id: 'EVENT', type: 'EVENT',
success: true, data: event}` (the payload itself plays no role in routing). -/
def broadcastMessage : WResponse :=
  { id := "EVENT", mtype := "EVENT", success := true }

/-- The `onmessage` demultiplexer: a message goes to the event-broadcast
handler iff `data.id === 'EVENT' && data.type === 'EVENT'`. -/
def routesToEvent (m : WResponse) : Bool :=
  m.id == "EVENT" && m.mtype == "EVENT"

/-- Whether a message reaching the response stream would resolve the
pending request `requestId` (`filter((response) => response.id === id)`). -/
def resolvesRequest (requestId : String) (m : WResponse) : Bool :=
  m.id == requestId

end Bridge

/-! ### Facts about decimal rendering and the message-id format -/

theorem decDigitsAux_lt (fuel : Nat) :
    ∀ n, n ≤ fuel → ∀ d ∈ decDigitsAux fuel n, d < 10 := by
  induction fuel with
  | zero =>
      intro n hn d hd
      simp [decDigitsAux] at hd
      omega
  | succ fuel ih =>
      intro n hn d hd
      rw [decDigitsAux] at hd
      by_cases h10 : n < 10
      · rw [if_pos h10] at hd
        simp at hd
        omega
      · rw [if_neg h10] at hd
        rcases List.mem_append.1 hd with h | h
        · exact ih (n / 10) (by omega) d h
        · simp at h
          omega

theorem decDigits_lt (n : Nat) : ∀ d ∈ decDigits n, d < 10 :=
  decDigitsAux_lt n n (Nat.le_refl n)

/-- Value of a digit list read in base ten. -/
def decVal (ds : List Nat) : Nat :=
  ds.foldl (fun a d => 10 * a + d) 0

theorem decVal_decDigitsAux (fuel : Nat) :
    ∀ n, n ≤ fuel → decVal (decDigitsAux fuel n) = n := by
  induction fuel with
  | zero =>
      intro n hn
      have hz : n = 0 := by omega
      simp [hz, decDigitsAux, decVal]
  | succ fuel ih =>
      intro n hn
      rw [decDigitsAux]
      by_cases h10 : n < 10
      · rw [if_pos h10]
        simp [decVal]
      · rw [if_neg h10]
        have hv := ih (n / 10) (by omega)
        unfold decVal at hv ⊢
        rw [List.foldl_append, hv]
        simp
        omega

theorem decVal_decDigits (n : Nat) : decVal (decDigits n) = n :=
  decVal_decDigitsAux n n (Nat.le_refl n)

theorem decDigits_inj {m n : Nat} (h : decDigits m = decDigits n) : m = n := by
  rw [← decVal_decDigits m, ← decVal_decDigits n, h]

theorem digitChar_inj_lt :
    ∀ d e : Fin 10, Nat.digitChar d.val = Nat.digitChar e.val → d = e := by
  decide

theorem digitChar_ne_underscore : ∀ d : Fin 10, Nat.digitChar d.val ≠ '_' := by
  decide

theorem map_digitChar_inj :
    ∀ ds es : List Nat, (∀ d ∈ ds, d < 10) → (∀ e ∈ es, e < 10) →
      ds.map Nat.digitChar = es.map Nat.digitChar → ds = es := by
  intro ds
  induction ds with
  | nil =>
      intro es _ _ h
      cases es <;> simp_all
  | cons d ds ih =>
      intro es hds hes h
      cases es with
      | nil => simp at h
      | cons e es =>
          simp at h
          have hd : d < 10 := hds d (by simp)
          have he : e < 10 := hes e (by simp)
          have hde : d = e := by
            simpa using congrArg Fin.val (digitChar_inj_lt ⟨d, hd⟩ ⟨e, he⟩ h.1)
          rw [hde, ih es (fun x hx => hds x (by simp [hx]))
            (fun x hx => hes x (by simp [hx])) h.2]

theorem toDec_data (n : Nat) : (toDec n).data = (decDigits n).map Nat.digitChar := rfl

theorem toDec_data_inj {m n : Nat} (h : (toDec m).data = (toDec n).data) :
    m = n := by
  rw [toDec_data, toDec_data] at h
  exact decDigits_inj (map_digitChar_inj _ _ (decDigits_lt m) (decDigits_lt n) h)

theorem toDec_no_underscore (n : Nat) : '_' ∉ (toDec n).data := by
  rw [toDec_data]
  intro hmem
  obtain ⟨d, hd, hEq⟩ := List.mem_map.1 hmem
  exact digitChar_ne_underscore ⟨d, decDigits_lt n d hd⟩ hEq

theorem last_sep_split (a : Char) :
    ∀ l1 r1 l2 r2 : List Char, l1 ++ a :: r1 = l2 ++ a :: r2 →
      a ∉ r1 → a ∉ r2 → r1 = r2 := by
  intro l1
  induction l1 with
  | nil =>
      intro r1 l2 r2 h h1 h2
      cases l2 with
      | nil => simpa using h
      | cons x xs =>
          simp at h
          exact absurd (h.2 ▸ List.mem_append_right xs (List.mem_cons_self a r2)) h1
  | cons y ys ih =>
      intro r1 l2 r2 h h1 h2
      cases l2 with
      | nil =>
          simp at h
          exact absurd (h.2 ▸ List.mem_append_right ys (List.mem_cons_self a r1)) h2
      | cons x xs =>
          simp at h
          exact ih r1 xs r2 h.2 h1 h2

theorem genId_data (ts c : Nat) :
    (Bridge.generateMessageId ts c).data =
      (['m', 's', 'g', '_'] ++ (toDec ts).data) ++ '_' :: (toDec c).data := by
  have h1 : ("msg_" : String).data = ['m', 's', 'g', '_'] := rfl
  have h2 : ("_" : String).data = ['_'] := rfl
  unfold Bridge.generateMessageId
  rw [String.data_append, String.data_append, String.data_append, h1, h2]
  simp [List.append_assoc]

/-! ### Characterisation of a reconciliation pass -/

namespace Worker

/-- The per-record effect of one settled attempt: a record is rewritten iff
the attempted booking's id is truthy and matches the record's key. -/
def stepRec (t : Booking × Bool) (r : Booking) : Booking :=
  if idTruthy t.1.id && r.id == t.1.id then
    applyUpdate
      (if t.2 then { syncStatus := some .synced, status := some .confirmed }
       else { syncStatus := some .failed })
      r
  else r

/-- The per-record effect of a whole sequence of settled attempts. -/
def applyAll (L : List (Booking × Bool)) (r : Booking) : Booking :=
  L.foldl (fun r t => stepRec t r) r

/-- The pending selection of a pass, tagged with the simulated remote
outcome of each booking. -/
def taggedOf (db0 : List Booking) (ok : Nat → Bool) : List (Booking × Bool) :=
  (pendingOf db0).enum.map fun p => (p.2, ok p.1)

theorem attemptBooking_db (s : LoopState) (b : Booking) (k : Bool) :
    (attemptBooking s b k).db = s.db.map (stepRec (b, k)) := by
  by_cases hT : idTruthy b.id = true
  · obtain ⟨m, hm⟩ : ∃ m, b.id = some m := by
      cases hb : b.id with
      | none => rw [hb] at hT; simp [idTruthy] at hT
      | some m => exact ⟨m, rfl⟩
    have hTm : idTruthy (some m) = true := hm ▸ hT
    cases k <;>
      · simp only [attemptBooking, hT, if_true, tableUpdate]
        refine List.map_congr_left fun r _ => ?_
        by_cases hr : r.id = some m <;>
          simp [stepRec, hm, hTm, hr]
  · rw [Bool.not_eq_true] at hT
    cases k <;>
      · simp only [attemptBooking, hT, Bool.false_eq_true, if_false]
        conv_lhs => rw [← List.map_id s.db]
        refine List.map_congr_left fun r _ => ?_
        simp [stepRec, hT]

theorem attemptBooking_res (s : LoopState) (b : Booking) (k : Bool) :
    (attemptBooking s b k).res =
      { successful := s.res.successful + (if k then 1 else 0)
        failed := s.res.failed + (if k then 0 else 1)
        errors := s.res.errors ++ (if k then [] else [syncErrorMsg b]) } := by
  cases k <;> simp [attemptBooking]

theorem attemptBooking_attempts (s : LoopState) (b : Booking) (k : Bool) :
    (attemptBooking s b k).attempts = s.attempts ++ [b] := by
  cases k <;> rfl

theorem runBatch_db (L : List (Booking × Bool)) :
    ∀ s : LoopState, (runBatch s L).db = s.db.map (applyAll L) := by
  induction L with
  | nil =>
      intro s
      exact (List.map_id s.db).symm
  | cons t L ih =>
      intro s
      rw [runBatch, ih, attemptBooking_db, List.map_map]
      rfl

theorem runBatch_res (L : List (Booking × Bool)) :
    ∀ s : LoopState, (runBatch s L).res =
      { successful := s.res.successful + L.countP (fun t => t.2)
        failed := s.res.failed + L.countP (fun t => !t.2)
        errors := s.res.errors ++
          (L.filter fun t => !t.2).map fun t => syncErrorMsg t.1 } := by
  induction L with
  | nil => intro s; simp [runBatch]
  | cons t L ih =>
      intro s
      rw [runBatch, ih, attemptBooking_res]
      cases ht : t.2 <;>
        simp [List.countP_cons, List.filter_cons, ht, SyncResult.mk.injEq] <;>
        omega

theorem runBatch_attempts (L : List (Booking × Bool)) :
    ∀ s : LoopState, (runBatch s L).attempts = s.attempts ++ L.map Prod.fst := by
  induction L with
  | nil => intro s; simp [runBatch]
  | cons t L ih =>
      intro s
      rw [runBatch, ih, attemptBooking_attempts]
      simp

theorem runBatch_append (L1 L2 : List (Booking × Bool)) :
    ∀ s : LoopState, runBatch s (L1 ++ L2) = runBatch (runBatch s L1) L2 := by
  induction L1 with
  | nil => intro s; rfl
  | cons t L ih =>
      intro s
      rw [List.cons_append, runBatch, runBatch, ih]

theorem length_le_four_of_not_five {α : Type} (l : List α)
    (h5 : ∀ (a b c d e : α) (rest : List α),
      l = a :: b :: c :: d :: e :: rest → False) :
    l.length ≤ 4 := by
  rcases l with _ | ⟨a, _ | ⟨b, _ | ⟨c, _ | ⟨d, _ | ⟨e, rest⟩⟩⟩⟩⟩ <;>
    first
      | exact (h5 _ _ _ _ _ _ rfl).elim
      | simp

theorem syncLoop_fst (n : Nat) :
    ∀ (i : Nat) (s : LoopState) (l : List (Booking × Bool)),
      (syncLoop n i s l).1 = runBatch s l := by
  intro i0 s0 l0
  induction i0, s0, l0 using syncLoop.induct n with
  | case1 i s => rfl
  | case2 i s a b c d e rest s1 ih =>
      have ih' : (syncLoop n (i + 5) (runBatch s [a, b, c, d, e]) rest).1 =
          runBatch (runBatch s [a, b, c, d, e]) rest := ih
      show (syncLoop n (i + 5) (runBatch s [a, b, c, d, e]) rest).1 =
        runBatch s (a :: b :: c :: d :: e :: rest)
      rw [ih', ← runBatch_append]
      rfl
  | case3 i s l hnil h5 =>
      rcases l with _ | ⟨a, _ | ⟨b, _ | ⟨c, _ | ⟨d, _ | ⟨e, rest⟩⟩⟩⟩⟩ <;>
        first
          | exact absurd rfl hnil
          | rfl
          | exact ((h5 _ _ _ _ _ _ rfl).elim)

end Worker

namespace Worker

theorem single_event_get (i n len j : Nat) (h1 : 0 < len) (h2 : len ≤ 4) :
    ([mkProgress i n] : List ProgressEvent).get? j =
      if 5 * j < len then some (mkProgress (i + 5 * j) n) else none := by
  cases j with
  | zero =>
      rw [if_pos (by omega)]
      simp
  | succ j =>
      rw [if_neg (by omega)]
      rfl

theorem syncLoop_events_get (n : Nat) :
    ∀ (i : Nat) (s : LoopState) (l : List (Booking × Bool)) (j : Nat),
      (syncLoop n i s l).2.get? j =
        if 5 * j < l.length then some (mkProgress (i + 5 * j) n) else none := by
  intro i0 s0 l0
  induction i0, s0, l0 using syncLoop.induct n with
  | case1 i s =>
      intro j
      rw [if_neg (by simp)]
      cases j <;> rfl
  | case2 i s a b c d e rest s1 ih =>
      intro j
      have ih' : ∀ j : Nat,
          (syncLoop n (i + 5) (runBatch s [a, b, c, d, e]) rest).2.get? j =
            if 5 * j < rest.length then some (mkProgress (i + 5 + 5 * j) n)
            else none := ih
      show (mkProgress i n ::
          (syncLoop n (i + 5) (runBatch s [a, b, c, d, e]) rest).2).get? j = _
      cases j with
      | zero =>
          rw [if_pos (by simp)]
          simp
      | succ j =>
          rw [List.get?_cons_succ, ih' j]
          by_cases h : 5 * j < rest.length
          · rw [if_pos h, if_pos (by simp; omega),
              show i + 5 + 5 * j = i + 5 * (j + 1) from by omega]
          · rw [if_neg h, if_neg (by simp; omega)]
  | case3 i s l hnil h5 =>
      intro j
      have h2 : l.length ≤ 4 := length_le_four_of_not_five l h5
      have h1 : 0 < l.length := by
        cases l with
        | nil => exact absurd rfl hnil
        | cons x xs => simp
      rcases l with _ | ⟨a, _ | ⟨b, _ | ⟨c, _ | ⟨d, _ | ⟨e, rest⟩⟩⟩⟩⟩
      · exact absurd rfl hnil
      · exact single_event_get i n _ j h1 h2
      · exact single_event_get i n _ j h1 h2
      · exact single_event_get i n _ j h1 h2
      · exact single_event_get i n _ j h1 h2
      · exact (h5 _ _ _ _ _ _ rfl).elim

theorem syncLoop_events_len (n : Nat) :
    ∀ (i : Nat) (s : LoopState) (l : List (Booking × Bool)),
      (syncLoop n i s l).2.length = (l.length + 4) / 5 := by
  intro i0 s0 l0
  induction i0, s0, l0 using syncLoop.induct n with
  | case1 i s => rfl
  | case2 i s a b c d e rest s1 ih =>
      have ih' : (syncLoop n (i + 5) (runBatch s [a, b, c, d, e]) rest).2.length =
          (rest.length + 4) / 5 := ih
      show (mkProgress i n ::
          (syncLoop n (i + 5) (runBatch s [a, b, c, d, e]) rest).2).length = _
      rw [List.length_cons, ih']
      simp
      omega
  | case3 i s l hnil h5 =>
      rcases l with _ | ⟨a, _ | ⟨b, _ | ⟨c, _ | ⟨d, _ | ⟨e, rest⟩⟩⟩⟩⟩
      · exact absurd rfl hnil
      · show ([mkProgress i n] : List ProgressEvent).length = _
        simp
      · show ([mkProgress i n] : List ProgressEvent).length = _
        simp
      · show ([mkProgress i n] : List ProgressEvent).length = _
        simp
      · show ([mkProgress i n] : List ProgressEvent).length = _
        simp
      · exact (h5 _ _ _ _ _ _ rfl).elim

theorem spb_db (db0 : List Booking) (ok : Nat → Bool) :
    (syncPendingBookings db0 ok).db = db0.map (applyAll (taggedOf db0 ok)) := by
  show (syncLoop (pendingOf db0).length 0 ⟨db0, ⟨0, 0, []⟩, []⟩
    (taggedOf db0 ok)).1.db = _
  rw [syncLoop_fst, runBatch_db]

theorem spb_result (db0 : List Booking) (ok : Nat → Bool) :
    (syncPendingBookings db0 ok).result =
      { successful := (taggedOf db0 ok).countP fun t => t.2
        failed := (taggedOf db0 ok).countP fun t => !t.2
        errors := ((taggedOf db0 ok).filter fun t => !t.2).map
          fun t => syncErrorMsg t.1 } := by
  show (syncLoop (pendingOf db0).length 0 ⟨db0, ⟨0, 0, []⟩, []⟩
    (taggedOf db0 ok)).1.res = _
  rw [syncLoop_fst, runBatch_res]
  simp

theorem spb_attempts (db0 : List Booking) (ok : Nat → Bool) :
    (syncPendingBookings db0 ok).attempts = pendingOf db0 := by
  show (syncLoop (pendingOf db0).length 0 ⟨db0, ⟨0, 0, []⟩, []⟩
    (taggedOf db0 ok)).1.attempts = _
  rw [syncLoop_fst, runBatch_attempts]
  simp [taggedOf, List.map_map]
  exact List.enum_map_snd _

theorem taggedOf_length (db0 : List Booking) (ok : Nat → Bool) :
    (taggedOf db0 ok).length = (pendingOf db0).length := by
  simp [taggedOf]

theorem spb_events_get (db0 : List Booking) (ok : Nat → Bool) (j : Nat) :
    (syncPendingBookings db0 ok).events.get? j =
      if 5 * j < (pendingOf db0).length then
        some (mkProgress (5 * j) (pendingOf db0).length)
      else none := by
  show (syncLoop (pendingOf db0).length 0 ⟨db0, ⟨0, 0, []⟩, []⟩
    (taggedOf db0 ok)).2.get? j = _
  rw [syncLoop_events_get, taggedOf_length]
  simp

theorem spb_events_len (db0 : List Booking) (ok : Nat → Bool) :
    (syncPendingBookings db0 ok).events.length =
      ((pendingOf db0).length + 4) / 5 := by
  show (syncLoop (pendingOf db0).length 0 ⟨db0, ⟨0, 0, []⟩, []⟩
    (taggedOf db0 ok)).2.length = _
  rw [syncLoop_events_len, taggedOf_length]

theorem stepRec_skip {t : Booking × Bool} {r : Booking}
    (h : ¬(idTruthy t.1.id = true ∧ r.id = t.1.id)) : stepRec t r = r := by
  unfold stepRec
  rw [if_neg]
  simp only [Bool.and_eq_true, beq_iff_eq]
  exact fun hc => h ⟨hc.1, hc.2⟩

theorem stepRec_id (t : Booking × Bool) (r : Booking) :
    (stepRec t r).id = r.id := by
  unfold stepRec
  split
  · rfl
  · rfl

theorem applyAll_cons (t : Booking × Bool) (L : List (Booking × Bool))
    (r : Booking) : applyAll (t :: L) r = applyAll L (stepRec t r) := rfl

theorem applyAll_skip {L : List (Booking × Bool)} {r : Booking}
    (h : ∀ t ∈ L, ¬(idTruthy t.1.id = true ∧ r.id = t.1.id)) :
    applyAll L r = r := by
  induction L with
  | nil => rfl
  | cons t L ih =>
      rw [applyAll_cons, stepRec_skip (h t (by simp))]
      exact ih fun u hu => h u (by simp [hu])

theorem applyAll_append (L1 L2 : List (Booking × Bool)) (r : Booking) :
    applyAll (L1 ++ L2) r = applyAll L2 (applyAll L1 r) := by
  unfold applyAll
  rw [List.foldl_append]

theorem applyAll_single (L1 L2 : List (Booking × Bool)) (t : Booking × Bool)
    (r : Booking)
    (h1 : ∀ u ∈ L1, ¬(idTruthy u.1.id = true ∧ r.id = u.1.id))
    (h2 : ∀ u ∈ L2, ¬(idTruthy u.1.id = true ∧ r.id = u.1.id)) :
    applyAll (L1 ++ t :: L2) r = stepRec t r := by
  rw [applyAll_append, applyAll_skip h1, applyAll_cons]
  exact applyAll_skip fun u hu => by rw [stepRec_id]; exact h2 u hu

end Worker

/-! ### Small concrete inputs used by witnesses and counterexamples -/

/-- A minimal stored booking with primary key `n`. -/
def sampleBooking (n : Nat) (ss : SyncState) : Booking :=
  { id := some n, ticketId := "t", passengers := [], totalAmount := 0,
    status := BookingStatus.pending, createdAt := 0, syncStatus := ss }

/-- Eight pending stored bookings (two batches: offsets 0 and 5). -/
def dbEight : List Booking :=
  [sampleBooking 1 .pending, sampleBooking 2 .pending, sampleBooking 3 .pending,
   sampleBooking 4 .pending, sampleBooking 5 .pending, sampleBooking 6 .pending,
   sampleBooking 7 .pending, sampleBooking 8 .pending]

/-- Six pending stored bookings (the spec's P4 instance). -/
def dbSix : List Booking :=
  [sampleBooking 1 .pending, sampleBooking 2 .pending, sampleBooking 3 .pending,
   sampleBooking 4 .pending, sampleBooking 5 .pending, sampleBooking 6 .pending]

/-- A pending and an already-synced stored booking. -/
def dbTwo : List Booking :=
  [sampleBooking 1 .pending, sampleBooking 2 .synced]

theorem countP_not_add {α : Type} (p : α → Bool) (L : List α) :
    L.countP p + L.countP (fun a => !p a) = L.length := by
  induction L with
  | nil => rfl
  | cons t L ih =>
      cases ht : p t <;> simp [List.countP_cons, ht] <;> omega

/-- Claim C10: for every reconciliation pass, the returned
`{successful, failed, errors}` satisfies `successful + failed` = number of
bookings selected as pending at the start of the pass, and `errors` has
exactly `failed` entries. -/
theorem claim_c10_result_totals (db0 : List Booking) (ok : Nat → Bool) :
    (Worker.syncPendingBookings db0 ok).result.successful +
        (Worker.syncPendingBookings db0 ok).result.failed =
      (Worker.pendingOf db0).length ∧
    (Worker.syncPendingBookings db0 ok).result.errors.length =
      (Worker.syncPendingBookings db0 ok).result.failed := by
  rw [Worker.spb_result]
  constructor
  · rw [countP_not_add, Worker.taggedOf_length]
  · rw [List.length_map, ← List.countP_eq_length_filter]

/-- Claim C2: a per-booking failure never aborts sibling bookings in the
same batch nor any later batch — for every outcome oracle, the trace of
attempted bookings of a pass is exactly the list of bookings selected as
pending at its start (each attempted exactly once). -/
theorem claim_c2_all_attempted (db0 : List Booking) (ok : Nat → Bool) :
    (Worker.syncPendingBookings db0 ok).attempts = Worker.pendingOf db0 :=
  Worker.spb_attempts db0 ok

/-- Claim C3 counterexample: with eight pending bookings the second batch's
progress event carries `percentage = 63` (`Math.round((5/8)*100)`), while
the claimed formula `floor(current/total*100)` yields `5 * 100 / 8 = 62`. -/
theorem claim_c3_counterexample :
    (Worker.syncPendingBookings dbEight (fun _ => true)).events.get? 1 =
        some { current := 5, total := 8, percentage := 63 } ∧
      ¬(63 = 5 * 100 / 8) := by
  decide

/-- Claim C3 (amended): before each batch of size 5 a progress event is
emitted with `current` the 0-indexed batch offset (0, 5, 10, …),
`total = n`, and `percentage = round(current/n*100)` rounding half up
(`Math.round`, i.e. `⌊(200·current + n) / (2·n)⌋`), not `floor`; in
particular for `n = 6` the events fire at offsets 0 and 5 with percentages
0 and 83. -/
theorem claim_c3_progress_events (db0 : List Booking) (ok : Nat → Bool) :
    ((Worker.syncPendingBookings db0 ok).events.length =
      ((Worker.pendingOf db0).length + 4) / 5) ∧
    (∀ j : Nat, (Worker.syncPendingBookings db0 ok).events.get? j =
      if 5 * j < (Worker.pendingOf db0).length then
        some { current := 5 * j
               total := (Worker.pendingOf db0).length
               percentage := (200 * (5 * j) + (Worker.pendingOf db0).length) /
                 (2 * (Worker.pendingOf db0).length) }
      else none) ∧
    ((Worker.pendingOf db0).length = 6 →
      (Worker.syncPendingBookings db0 ok).events =
        [{ current := 0, total := 6, percentage := 0 },
         { current := 5, total := 6, percentage := 83 }]) := by
  refine ⟨Worker.spb_events_len db0 ok, fun j => ?_, fun h6 => ?_⟩
  · rw [Worker.spb_events_get]
    rfl
  · apply List.ext
    intro j
    rw [Worker.spb_events_get, h6]
    cases j with
    | zero => decide
    | succ j =>
        cases j with
        | zero => decide
        | succ j =>
            rw [if_neg (by omega)]
            rfl

/-- Witness for the amended C3: the six-booking instance produces exactly
the events at offsets 0 and 5 with percentages 0 and 83. -/
theorem claim_c3_progress_events_witness :
    (Worker.syncPendingBookings dbSix (fun _ => true)).events =
      [{ current := 0, total := 6, percentage := 0 },
       { current := 5, total := 6, percentage := 83 }] :=
  (claim_c3_progress_events dbSix (fun _ => true)).2.2 (by decide)

/-! ### Per-record outcome of a pass (claims C1 and C4) -/

/-- Distinctness of primary keys in a table: no two records share an
assigned (`some`) id.  True of any real Dexie table, whose primary keys are
unique. -/
abbrev IdsDistinct (db : List Booking) : Prop :=
  List.Pairwise (fun a b => (a.id.isSome ∨ b.id.isSome) → a.id ≠ b.id) db

theorem idsDistinct_rel_symm :
    Symmetric (fun a b : Booking => (a.id.isSome ∨ b.id.isSome) → a.id ≠ b.id) :=
  fun _ _ h hOr hEq => h hOr.symm hEq.symm

theorem isSome_of_idTruthy {o : Option Nat} (h : idTruthy o = true) :
    o.isSome := by
  cases o with
  | none => simp [idTruthy] at h
  | some m => rfl

namespace Worker

theorem applyAll_hit :
    ∀ (L : List (Booking × Bool)) (i : Nat) (b : Booking) (k : Bool),
      L.get? i = some (b, k) →
      (∀ (j : Nat) (u : Booking × Bool), L.get? j = some u → j ≠ i →
        b.id ≠ u.1.id) →
      applyAll L b = stepRec (b, k) b := by
  intro L
  induction L with
  | nil => intro i b k h; simp at h
  | cons t L ih =>
      intro i b k hget hothers
      cases i with
      | zero =>
          have ht : t = (b, k) := by simpa using hget
          subst ht
          rw [applyAll_cons]
          apply applyAll_skip
          intro u hu hc
          obtain ⟨j', hj'⟩ := List.mem_iff_get?.1 hu
          refine hothers (j' + 1) u (by simpa using hj') (by simp) ?_
          rw [← hc.2, stepRec_id]
      | succ i =>
          have hskip : stepRec t b = b := by
            apply stepRec_skip
            intro hc
            exact hothers 0 t rfl (by simp) hc.2
          rw [applyAll_cons, hskip]
          refine ih i b k (by simpa using hget) ?_
          intro j u hj hne
          exact hothers (j + 1) u (by simpa using hj) (by omega)

theorem taggedOf_get? (db0 : List Booking) (ok : Nat → Bool) (i : Nat)
    (b : Booking) (h : (pendingOf db0).get? i = some b) :
    (taggedOf db0 ok).get? i = some (b, ok i) := by
  unfold taggedOf
  rw [List.get?_map, List.get?_enum, h]
  rfl

theorem taggedOf_entry (db0 : List Booking) (ok : Nat → Bool) (j : Nat)
    (u : Booking × Bool) (h : (taggedOf db0 ok).get? j = some u) :
    (pendingOf db0).get? j = some u.1 := by
  unfold taggedOf at h
  rw [List.get?_map, List.get?_enum] at h
  cases hp : (pendingOf db0).get? j with
  | none => rw [hp] at h; simp at h
  | some b =>
      rw [hp] at h
      simp at h
      rw [← h]

end Worker

theorem pendingOf_pairwise {db0 : List Booking} (hu : IdsDistinct db0) :
    List.Pairwise (fun a b => (a.id.isSome ∨ b.id.isSome) → a.id ≠ b.id)
      (Worker.pendingOf db0) :=
  hu.filter _

theorem pendingOf_mem {db0 : List Booking} {b : Booking}
    (h : b ∈ Worker.pendingOf db0) :
    b ∈ db0 ∧ b.syncStatus = SyncState.pending := by
  obtain ⟨h1, h2⟩ := List.mem_filter.1 h
  exact ⟨h1, by simpa using h2⟩

/-- Claim C1: in every reconciliation pass over a well-formed table (all
ids assigned and nonzero, primary keys distinct), each selected pending
booking's outcome is: on simulated-remote success its stored record is
updated to `syncStatus=synced, status=confirmed`; on failure its record is
updated to `syncStatus=failed` and a string of exactly the form
`"Booking <id>: <reason>"` is appended to the result's error list — the
final error list is exactly one such string per failed booking, in order. -/
theorem claim_c1_per_booking_outcome (db0 : List Booking) (ok : Nat → Bool)
    (hid : ∀ b ∈ db0, idTruthy b.id = true) (hu : IdsDistinct db0) :
    (∀ (i j : Nat) (b : Booking),
      (Worker.pendingOf db0).get? i = some b → db0.get? j = some b →
      (Worker.syncPendingBookings db0 ok).db.get? j =
        some (if ok i then
          { b with syncStatus := SyncState.synced,
                   status := BookingStatus.confirmed }
        else { b with syncStatus := SyncState.failed })) ∧
    (Worker.syncPendingBookings db0 ok).result.errors =
      ((Worker.pendingOf db0).enum.filter fun p => !(ok p.1)).map
        fun p => "Booking " ++ optIdRepr p.2.id ++ ": API sync failed" := by
  constructor
  · intro i j b hpi hdj
    have hbdb : b ∈ db0 := List.get?_mem hdj
    have hT : idTruthy b.id = true := hid b hbdb
    rw [Worker.spb_db, List.get?_map, hdj]
    have hpw := pendingOf_pairwise hu
    have happ : Worker.applyAll (Worker.taggedOf db0 ok) b =
        Worker.stepRec (b, ok i) b := by
      apply Worker.applyAll_hit _ i b (ok i)
        (Worker.taggedOf_get? db0 ok i b hpi)
      intro j' u hj' hne
      have hpj' : (Worker.pendingOf db0).get? j' = some u.1 :=
        Worker.taggedOf_entry db0 ok j' u hj'
      have hlt_i := (List.get?_eq_some.1 hpi).1
      have hlt_j := (List.get?_eq_some.1 hpj').1
      have hgi : (Worker.pendingOf db0).get ⟨i, hlt_i⟩ = b :=
        (List.get?_eq_some.1 hpi).2
      have hgj : (Worker.pendingOf db0).get ⟨j', hlt_j⟩ = u.1 :=
        (List.get?_eq_some.1 hpj').2
      rcases Nat.lt_or_ge j' i with hlt | hge
      · have := List.pairwise_iff_get.1 hpw ⟨j', hlt_j⟩ ⟨i, hlt_i⟩ hlt
        rw [hgi, hgj] at this
        exact fun hEq => this (Or.inr (isSome_of_idTruthy hT)) hEq.symm
      · have hlt2 : i < j' := by omega
        have := List.pairwise_iff_get.1 hpw ⟨i, hlt_i⟩ ⟨j', hlt_j⟩ hlt2
        rw [hgi, hgj] at this
        exact this (Or.inl (isSome_of_idTruthy hT))
    show some (Worker.applyAll (Worker.taggedOf db0 ok) b) = _
    rw [happ]
    unfold Worker.stepRec
    rw [if_pos (by simp [hT])]
    cases hk : ok i <;> simp [applyUpdate]
  · rw [Worker.spb_result]
    show ((Worker.taggedOf db0 ok).filter fun t => !t.2).map
        (fun t => Worker.syncErrorMsg t.1) = _
    unfold Worker.taggedOf
    rw [List.filter_map, List.map_map]
    rfl

/-- Witness for C1: a two-record table whose pending booking fails; its
record ends `failed` and one exact-form error string is produced. -/
theorem claim_c1_witness :
    (Worker.syncPendingBookings dbTwo (fun _ => false)).db.get? 0 =
        some { sampleBooking 1 .pending with syncStatus := SyncState.failed } ∧
      (Worker.syncPendingBookings dbTwo (fun _ => false)).result.errors =
        ["Booking 1: API sync failed"] := by
  have h := claim_c1_per_booking_outcome dbTwo (fun _ => false)
    (by decide) (by decide)
  constructor
  · simpa using h.1 0 0 (sampleBooking 1 .pending) (by decide) (by decide)
  · rw [h.2]
    decide

/-- Claim C4: reconcile is idempotent on already-synced records — for every
booking whose `syncStatus` is `synced`, a reconciliation pass leaves its
stored record unchanged (only `pending` records are selected and updated). -/
theorem claim_c4_synced_untouched (db0 : List Booking) (ok : Nat → Bool)
    (hu : IdsDistinct db0) :
    ∀ (j : Nat) (b : Booking), db0.get? j = some b →
      b.syncStatus = SyncState.synced →
      (Worker.syncPendingBookings db0 ok).db.get? j = some b := by
  intro j b hdj hsync
  rw [Worker.spb_db, List.get?_map, hdj]
  have hskip : Worker.applyAll (Worker.taggedOf db0 ok) b = b := by
    apply Worker.applyAll_skip
    intro t ht hc
    obtain ⟨j', hj'⟩ := List.mem_iff_get?.1 ht
    have hpj' : (Worker.pendingOf db0).get? j' = some t.1 :=
      Worker.taggedOf_entry db0 ok j' t hj'
    obtain ⟨htdb, htpend⟩ := pendingOf_mem (List.get?_mem hpj')
    have hne : b ≠ t.1 := by
      intro he
      rw [← he, hsync] at htpend
      exact absurd htpend (by simp)
    have := (hu.forall idsDistinct_rel_symm) (List.get?_mem hdj) htdb hne
    exact this (Or.inr (isSome_of_idTruthy hc.1)) hc.2
  show some (Worker.applyAll (Worker.taggedOf db0 ok) b) = some b
  rw [hskip]

/-- Witness for C4: the synced record of the two-record table is unchanged
by a pass in which every attempt succeeds. -/
theorem claim_c4_witness :
    (Worker.syncPendingBookings dbTwo (fun _ => true)).db.get? 1 =
      some (sampleBooking 2 .synced) :=
  claim_c4_synced_untouched dbTwo (fun _ => true) (by decide) 1
    (sampleBooking 2 .synced) (by decide) (by decide)

/-! ### Claim C8: the needsSync / pendingCount coupling -/

/-- Claim C8 counterexample: `updateSyncStatus` is itself a state-store
operation and may write `sync.pendingCount` directly, after which the two
fields disagree — so the claim's "after any sequence of state-store
operations the two fields are always equal" is false as stated. -/
theorem claim_c8_counterexample :
    (applyOps (initialState true)
        [StoreOp.updSyncStatus { pendingCount := some 1 }]).bookings.needsSync ≠
      (applyOps (initialState true)
        [StoreOp.updSyncStatus { pendingCount := some 1 }]).sync.pendingCount := by
  decide

theorem applyOp_preserves_pc {st : AppState}
    (hinv : st.bookings.needsSync = st.sync.pendingCount) (op : StoreOp)
    (hop : setsPendingCountDirectly op = false) :
    (applyOp st op).bookings.needsSync = (applyOp st op).sync.pendingCount := by
  cases op with
  | updBookingStats p =>
      cases hp : p.needsSync with
      | none =>
          simp [applyOp, updateBookingStats, hp, mergeBookingStats, hinv]
      | some k =>
          simp [applyOp, updateBookingStats, hp, updateSyncStatus,
            mergeBookingStats, mergeSyncStatus]
  | updSyncStatus p =>
      cases hpc : p.pendingCount with
      | some k =>
          rw [setsPendingCountDirectly, hpc] at hop
          simp at hop
      | none =>
          simp [applyOp, updateSyncStatus, mergeSyncStatus, hpc, hinv]
  | updNetworkStatus b =>
      simpa [applyOp, updateNetworkStatus] using hinv
  | handleEvent e now =>
      cases e with
      | bookingSaved stats =>
          cases stats with
          | none => simpa [applyOp, handleWorkerEvent] using hinv
          | some sp =>
              simp [applyOp, handleWorkerEvent, updateBookingStats,
                updateSyncStatus, mergeBookingStats, mergeSyncStatus]
      | bookingUpdated stats =>
          cases stats with
          | none => simpa [applyOp, handleWorkerEvent] using hinv
          | some sp =>
              simp [applyOp, handleWorkerEvent, updateBookingStats,
                updateSyncStatus, mergeBookingStats, mergeSyncStatus]
      | bookingDeleted stats =>
          cases stats with
          | none => simpa [applyOp, handleWorkerEvent] using hinv
          | some sp =>
              simp [applyOp, handleWorkerEvent, updateBookingStats,
                updateSyncStatus, mergeBookingStats, mergeSyncStatus]
      | statsChanged stats =>
          cases stats with
          | none => simpa [applyOp, handleWorkerEvent] using hinv
          | some sp =>
              simp [applyOp, handleWorkerEvent, updateBookingStats,
                updateSyncStatus, mergeBookingStats, mergeSyncStatus]
      | syncProgress c t pc =>
          simpa [applyOp, handleWorkerEvent, updateSyncStatus,
            mergeSyncStatus] using hinv
      | syncCompleted results stats =>
          cases stats with
          | none =>
              simpa [applyOp, handleWorkerEvent, updateSyncStatus,
                mergeSyncStatus] using hinv
          | some sp =>
              simp [applyOp, handleWorkerEvent, updateBookingStats,
                updateSyncStatus, mergeBookingStats, mergeSyncStatus]
  | reset o => rfl

theorem applyOps_preserves_pc :
    ∀ (ops : List StoreOp) (st : AppState),
      st.bookings.needsSync = st.sync.pendingCount →
      (∀ op ∈ ops, setsPendingCountDirectly op = false) →
      (applyOps st ops).bookings.needsSync =
        (applyOps st ops).sync.pendingCount := by
  intro ops
  induction ops with
  | nil => intro st h _; exact h
  | cons op ops ih =>
      intro st h hops
      exact ih (applyOp st op)
        (applyOp_preserves_pc h op (hops op (by simp)))
        (fun o ho => hops o (by simp [ho]))

/-- Claim C8 (amended): every `updateBookingStats` that sets `needsSync`
also sets the sync slice's `pendingCount` to the same value; consequently,
starting from the initial state, after any sequence of state-store
operations in which `updateSyncStatus` is never handed a `pendingCount`
field directly, the two fields are always equal. -/
theorem claim_c8_pending_count_coupling (online0 : Bool) (ops : List StoreOp)
    (h : ∀ op ∈ ops, setsPendingCountDirectly op = false) :
    (applyOps (initialState online0) ops).bookings.needsSync =
      (applyOps (initialState online0) ops).sync.pendingCount :=
  applyOps_preserves_pc ops (initialState online0) rfl h

/-- Witness for the amended C8: a mixed operation sequence — a stats merge
setting `needsSync`, a completed-sync event, a direct `isSyncing` toggle —
keeps the two fields equal. -/
theorem claim_c8_witness :
    (applyOps (initialState true)
        [StoreOp.updBookingStats { total := some 3, needsSync := some 2 },
         StoreOp.handleEvent (WorkerEvent.syncCompleted
           (some { successful := 1, failed := 1,
                   errors := ["Booking 5: API sync failed"] })
           (some { bookings := 4, tickets := 0, pendingSync := 2 })) 99,
         StoreOp.updSyncStatus { isSyncing := some true }]).bookings.needsSync =
      (applyOps (initialState true)
        [StoreOp.updBookingStats { total := some 3, needsSync := some 2 },
         StoreOp.handleEvent (WorkerEvent.syncCompleted
           (some { successful := 1, failed := 1,
                   errors := ["Booking 5: API sync failed"] })
           (some { bookings := 4, tickets := 0, pendingSync := 2 })) 99,
         StoreOp.updSyncStatus { isSyncing := some true }]).sync.pendingCount :=
  claim_c8_pending_count_coupling true _ (by decide)

/-! ### Claims C5 and C6: the orchestrator's guard and return value -/

theorem updatePendingCount_needsSync (st : AppState) (tot pend : Nat) :
    (updateBookingStats st
      { total := some tot, needsSync := some pend }).bookings.needsSync =
      pend := by
  simp [updateBookingStats, updateSyncStatus, mergeBookingStats,
    mergeSyncStatus]

/-- Claim C5: a `syncNow` invocation that finds `isSyncing` already true
returns `false`, changes nothing and issues no reconcile call; and a
reconcile call is issued iff not already syncing AND the network is
reachable AND the freshly recomputed pending count is positive. -/
theorem claim_c5_no_double_sync (st : AppState) (ctx : SyncSvc.WorkerCtx) :
    (st.sync.isSyncing = true →
      SyncSvc.syncPendingBookings st ctx = (false, st, 0)) ∧
    ((SyncSvc.syncPendingBookings st ctx).2.2 = 1 ↔
      (st.sync.isSyncing = false ∧ ctx.online = true ∧ 0 < ctx.statsPending)) := by
  constructor
  · intro h
    simp [SyncSvc.syncPendingBookings, h]
  · unfold SyncSvc.syncPendingBookings
    by_cases h1 : st.sync.isSyncing
    · simp [h1]
    · rw [Bool.not_eq_true] at h1
      by_cases h2 : ctx.online = true
      · by_cases h3 : ctx.statsPending = 0
        · simp [h1, h2, h3, updatePendingCount_needsSync]
        · cases hro : ctx.reconcileOk <;>
            simp [h1, h2, h3, hro, updatePendingCount_needsSync] <;>
            omega
      · rw [Bool.not_eq_true] at h2
        simp [h1, h2]

/-- A store state with a sync already in flight. -/
def stBusy : AppState :=
  { bookings := { total := 3, pending := 1, confirmed := 2, cancelled := 0,
                  needsSync := 2 }
    sync := { isSyncing := true, lastSyncTime := none, pendingCount := 2,
              failedCount := 0, syncErrors := [] }
    network := { isOnline := true } }

/-- A collaborator snapshot: online, two pending, reconcile resolves. -/
def ctxTwoPending : SyncSvc.WorkerCtx :=
  { online := true, statsBookings := 3, statsPending := 2,
    reconcileOk := some { successful := 2, failed := 0, errors := [] },
    now := 42 }

/-- Witness for C5: with a sync in flight the second invocation returns
`false` untouched with zero reconcile calls. -/
theorem claim_c5_witness :
    SyncSvc.syncPendingBookings stBusy ctxTwoPending = (false, stBusy, 0) :=
  (claim_c5_no_double_sync stBusy ctxTwoPending).1 rfl

/-- Claim C6: when a pass actually runs (guards hold, the bridge call
resolves with `r`), `syncNow` returns `true` iff `r.failed = 0`; the
failure details are exposed through the sync-status slice — the
`SYNC_COMPLETED` event handler stores `r.errors` in `syncErrors` and
`r.failed` in `failedCount` — never through the returned boolean. -/
theorem claim_c6_boolean_vs_errors (st : AppState) (ctx : SyncSvc.WorkerCtx)
    (r : Worker.SyncResult) (st2 : AppState) (now : Nat)
    (h1 : st.sync.isSyncing = false) (h2 : ctx.online = true)
    (h3 : 0 < ctx.statsPending) (h4 : ctx.reconcileOk = some r) :
    ((SyncSvc.syncPendingBookings st ctx).1 = true ↔ r.failed = 0) ∧
    (handleWorkerEvent st2
      (WorkerEvent.syncCompleted (some r) none) now).sync.syncErrors =
        r.errors ∧
    (handleWorkerEvent st2
      (WorkerEvent.syncCompleted (some r) none) now).sync.failedCount =
        r.failed := by
  refine ⟨?_, ?_, ?_⟩
  · unfold SyncSvc.syncPendingBookings
    have h3' : ¬(ctx.statsPending = 0) := by omega
    simp [h1, h2, h3', h4, updatePendingCount_needsSync]
  · simp [handleWorkerEvent, updateSyncStatus, mergeSyncStatus]
  · simp [handleWorkerEvent, updateSyncStatus, mergeSyncStatus]

/-- A store state with no sync in flight. -/
def stIdle : AppState :=
  { bookings := { total := 3, pending := 1, confirmed := 2, cancelled := 0,
                  needsSync := 2 }
    sync := { isSyncing := false, lastSyncTime := none, pendingCount := 2,
              failedCount := 0, syncErrors := [] }
    network := { isOnline := true } }

/-- A collaborator snapshot whose reconcile resolves with one failure. -/
def ctxOneFailed : SyncSvc.WorkerCtx :=
  { online := true, statsBookings := 3, statsPending := 2,
    reconcileOk := some { successful := 1, failed := 1,
                          errors := ["Booking 1: API sync failed"] },
    now := 42 }

/-- Witness for C6: a pass with one failure returns `false` while the
completed-sync event stores the error string in `syncErrors`. -/
theorem claim_c6_witness :
    (¬((SyncSvc.syncPendingBookings stIdle ctxOneFailed).1 = true)) ∧
    (handleWorkerEvent stIdle
      (WorkerEvent.syncCompleted
        (some { successful := 1, failed := 1,
                errors := ["Booking 1: API sync failed"] }) none)
      42).sync.syncErrors = ["Booking 1: API sync failed"] := by
  have h := claim_c6_boolean_vs_errors stIdle ctxOneFailed
    { successful := 1, failed := 1, errors := ["Booking 1: API sync failed"] }
    stIdle 42 rfl rfl (by decide) rfl
  exact ⟨fun htrue => by simpa using h.1.1 htrue, h.2.1⟩

/-! ### Claim C7: updates on missing ids -/

theorem any_ext {α : Type} (l : List α) (p q : α → Bool)
    (h : ∀ a ∈ l, p a = q a) : l.any p = l.any q := by
  induction l with
  | nil => rfl
  | cons a l ih =>
      simp only [List.any_cons, h a (by simp)]
      rw [ih fun x hx => h x (by simp [hx])]

theorem tableUpdate_keys (db : List Booking) (key : Nat) (u : BookingUpdate)
    (k : Nat) :
    ((tableUpdate db key u).1.any fun b => b.id == some k) =
      (db.any fun b => b.id == some k) := by
  unfold tableUpdate
  rw [List.any_map]
  refine any_ext db _ _ fun b _ => ?_
  by_cases hb : b.id = some key <;> simp [hb, Function.comp, applyUpdate]

theorem batchUpdate_count :
    ∀ (us : List (Nat × BookingUpdate)) (db : List Booking) (c : Nat),
      (us.foldl
        (fun acc e =>
          let r := tableUpdate acc.1 e.1 e.2
          (r.1, acc.2 + if r.2 != 0 then 1 else 0))
        (db, c)).2 =
      c + (us.filter fun e => db.any fun b => b.id == some e.1).length := by
  intro us
  induction us with
  | nil => intro db c; simp
  | cons e us ih =>
      intro db c
      rw [List.foldl_cons, ih]
      have hfil :
          (us.filter fun e2 =>
            (tableUpdate db e.1 e.2).1.any fun b => b.id == some e2.1) =
          (us.filter fun e2 => db.any fun b => b.id == some e2.1) :=
        List.filter_congr fun e2 _ => tableUpdate_keys db e.1 e.2 e2.1
      rw [hfil, List.filter_cons]
      by_cases hk : (db.any fun b => b.id == some e.1) = true
      · have h2 : (tableUpdate db e.1 e.2).2 = 1 := by
          unfold tableUpdate
          simp [hk]
        simp [h2, hk]
        omega
      · rw [Bool.not_eq_true] at hk
        have h2 : (tableUpdate db e.1 e.2).2 = 0 := by
          unfold tableUpdate
          simp [hk]
        simp [h2, hk]

/-- Claim C7: a Local-Store update on an id not present in the bookings
table affects 0 rows (the table and the count are returned unchanged, no
exception path is taken), and in a batch update every entry targeting a
missing id contributes 0 while the call still returns the count of entries
that hit an existing row. -/
theorem claim_c7_missing_id_updates :
    (∀ (db : List Booking) (k : Nat) (u : BookingUpdate),
      (∀ b ∈ db, b.id ≠ some k) → tableUpdate db k u = (db, 0)) ∧
    (∀ (db : List Booking) (us : List (Nat × BookingUpdate)),
      (Worker.batchUpdateBookings db us).2 =
        (us.filter fun e => db.any fun b => b.id == some e.1).length) := by
  constructor
  · intro db k u h
    unfold tableUpdate
    have h1 : (db.map fun b => if b.id = some k then applyUpdate u b else b) =
        db := by
      conv_rhs => rw [← List.map_id db]
      exact List.map_congr_left fun b hb => if_neg (h b hb)
    have h2 : (db.any fun b => b.id == some k) = false := by
      rw [List.any_eq_false]
      intro b hb
      simp [h b hb]
    rw [h1, h2]
    simp
  · intro db us
    rw [show Worker.batchUpdateBookings db us =
      us.foldl
        (fun acc e =>
          let r := tableUpdate acc.1 e.1 e.2
          (r.1, acc.2 + if r.2 != 0 then 1 else 0))
        (db, 0) from rfl]
    rw [batchUpdate_count]
    omega

/-- Witness for C7: updating missing id 3 of the two-record table affects
nothing; a batch of one missing and one present id reports count 1. -/
theorem claim_c7_witness :
    tableUpdate dbTwo 3 {} = (dbTwo, 0) ∧
    (Worker.batchUpdateBookings dbTwo
      [(3, {}), (1, { syncStatus := some SyncState.failed })]).2 = 1 := by
  constructor
  · exact claim_c7_missing_id_updates.1 dbTwo 3 {} (by decide)
  · rw [claim_c7_missing_id_updates.2 dbTwo
      [(3, {}), (1, { syncStatus := some SyncState.failed })]]
    decide

/-! ### Claim C9: the broadcast sentinel id -/

/-- Claim C9: every generated request id has the form
`msg_<timestamp>_<counter>`; no generated id ever equals the reserved
sentinel `"EVENT"`; two ids generated with different counter values (as
successive sends in one session always are, the counter being
pre-incremented) are distinct; and a broadcast envelope is routed to the
event handler and can never resolve a pending request. -/
theorem claim_c9_sentinel_no_collision :
    (∀ ts c : Nat, Bridge.generateMessageId ts c =
      "msg_" ++ toDec ts ++ "_" ++ toDec c) ∧
    (∀ ts c : Nat, Bridge.generateMessageId ts c ≠ "EVENT") ∧
    (∀ ts1 c1 ts2 c2 : Nat, c1 ≠ c2 →
      Bridge.generateMessageId ts1 c1 ≠ Bridge.generateMessageId ts2 c2) ∧
    Bridge.routesToEvent Bridge.broadcastMessage = true ∧
    (∀ ts c : Nat,
      Bridge.resolvesRequest (Bridge.generateMessageId ts c)
        Bridge.broadcastMessage = false) := by
  have hne : ∀ ts c : Nat, Bridge.generateMessageId ts c ≠ "EVENT" := by
    intro ts c h
    have hd := congrArg String.data h
    rw [genId_data] at hd
    have he : ("EVENT" : String).data = ['E', 'V', 'E', 'N', 'T'] := rfl
    rw [he] at hd
    simp at hd
  refine ⟨fun ts c => rfl, hne, ?_, rfl, ?_⟩
  · intro ts1 c1 ts2 c2 hcc h
    apply hcc
    have hd := congrArg String.data h
    rw [genId_data, genId_data] at hd
    exact toDec_data_inj
      (last_sep_split '_' _ _ _ _ hd (toDec_no_underscore c1)
        (toDec_no_underscore c2))
  · intro ts c
    unfold Bridge.resolvesRequest Bridge.broadcastMessage
    exact beq_eq_false_iff_ne.2 fun hEq => hne ts c hEq.symm

/-- Witness for C9: two sends of one session (equal timestamp, successive
counters) produce distinct ids. -/
theorem claim_c9_witness :
    Bridge.generateMessageId 7 1 ≠ Bridge.generateMessageId 7 2 :=
  claim_c9_sentinel_no_collision.2.2.1 7 1 7 2 (by decide)
